import Mathlib

set_option autoImplicit false

/-!
Verification of pterodactyl-rs/wings against its specification.

The definitions below are shallow embeddings of functions of the repository,
translated from the Rust source under src/application/src/.  Each definition's
doc comment names the source location it embeds.  Theorems settle the frozen
claims C1 .. C10.
-/

namespace Wings

/-! ## Outgoing server transfer (src/application/src/server/transfer.rs) -/

/-- Effects performed at the end of an outgoing transfer task: whether the
panel-side transfer flag was set to false, whether the server's transfer slot
was cleared, whether `transferring` was stored false, and which status string
was broadcast on the websocket. -/
structure TransferEnd where
  panelFlagFalse : Bool
  slotCleared : Bool
  transferringSetFalse : Bool
  broadcast : String
  deriving DecidableEq

/-- Effects of `OutgoingServerTransfer::transfer_failure` (transfer.rs 92-109):
set the panel transfer flag false, take the transfer slot, store
`transferring = false`, broadcast "failure". -/
def transferFailureEnd : TransferEnd :=
  { panelFlagFalse := true
    slotCleared := true
    transferringSetFalse := true
    broadcast := "failure" }

/-- Effects of the success tail of the transfer task (transfer.rs 499-516):
only `transferring` is stored false and "completed" is broadcast (after a one
second delay); the panel flag and the slot are untouched. -/
def transferCompletedEnd : TransferEnd :=
  { panelFlagFalse := false
    slotCleared := false
    transferringSetFalse := true
    broadcast := "completed" }

/-- Result of awaiting a spawned tokio task: the task's own result, or a join
error (panic/cancellation). -/
inductive JoinResult (α : Type) where
  | ok : α → JoinResult α
  | joinError : String → JoinResult α
  deriving DecidableEq

/-- The decision taken after `tokio::join!(archive_task, checksum_task, response)`
in `OutgoingServerTransfer::start` (transfer.rs 431-516).  The join result of
the multipart POST is bound to `_` on line 431 and is never examined: only the
archive task's result (its inner error on 434, its join error on 445) and the
checksum task's result (456) route to `transfer_failure`. -/
def joinOutcome (archive : JoinResult (Except String Unit))
    (checksum : Except String Unit) (response : Except String Unit) : TransferEnd :=
  match archive, checksum, response with
  | .ok (.error _), _, _ => transferFailureEnd
  | .joinError _, _, _ => transferFailureEnd
  | .ok (.ok _), .error _, _ => transferFailureEnd
  | .ok (.ok _), .ok _, _ => transferCompletedEnd

/-! ## C1 -/

/-- C1 is false as stated: after the join, a failed POST of the multipart form
(response error) alone does not trigger `transfer_failure` — with the archive
and checksum tasks both successful the task proceeds to broadcast "completed". -/
theorem c1_counterexample :
    joinOutcome (.ok (.ok ())) (.ok ()) (.error "connection refused") =
      transferCompletedEnd ∧
    transferCompletedEnd ≠ transferFailureEnd := by
  exact ⟨rfl, by decide⟩

/-- C1 amended: after the join, an error of the archive task (its own error or
a join error) or of the checksum task triggers `transfer_failure`, whose effects
are: panel transfer flag set false, slot cleared, `transferring` set false,
"failure" broadcast.  When archive and checksum both succeed, "completed" is
broadcast regardless of the POST response's result. -/
theorem c1_join_error_handling (archive : JoinResult (Except String Unit))
    (checksum response : Except String Unit) :
    (((∃ e, archive = .joinError e) ∨ (∃ e, archive = .ok (.error e)) ∨
        (∃ e, checksum = .error e)) →
      joinOutcome archive checksum response = transferFailureEnd) ∧
    (archive = .ok (.ok ()) → checksum = .ok () →
      joinOutcome archive checksum response = transferCompletedEnd) ∧
    transferFailureEnd.panelFlagFalse = true ∧
    transferFailureEnd.slotCleared = true ∧
    transferFailureEnd.transferringSetFalse = true ∧
    transferFailureEnd.broadcast = "failure" := by
  refine ⟨?_, ?_, rfl, rfl, rfl, rfl⟩
  · rintro (⟨e, rfl⟩ | ⟨e, rfl⟩ | ⟨e, rfl⟩)
    · rfl
    · rfl
    · cases archive with
      | ok r =>
        cases r with
        | ok u => rfl
        | error _ => rfl
      | joinError _ => rfl
  · rintro rfl rfl
    rfl

/-- Witness for `c1_join_error_handling` at a concrete input. -/
theorem c1_join_error_handling_witness :
    joinOutcome (.joinError "cancelled") (.ok ()) (.ok ()) = transferFailureEnd :=
  (c1_join_error_handling (.joinError "cancelled") (.ok ()) (.ok ())).1
    (Or.inl ⟨"cancelled", rfl⟩)

/-! ## Transfer task slot (transfer.rs 130, 519-521, 527-533) -/

/-- Bookkeeping state for the task slot of one `OutgoingServerTransfer`:
`task` is the stored `JoinHandle` (the `task: Option<JoinHandle>` field),
`live` the ids of tasks spawned by this transfer and not yet aborted,
`aborted` the ids aborted so far, and `next` the id the next spawn receives. -/
structure TransferTaskState where
  task : Option Nat
  live : List Nat
  aborted : List Nat
  next : Nat
  deriving DecidableEq

/-- `OutgoingServerTransfer::new` leaves the slot empty (transfer.rs 73). -/
def initialTransferTaskState : TransferTaskState :=
  { task := none, live := [], aborted := [], next := 0 }

inductive TransferTaskOp where
  | start
  | drop
  deriving DecidableEq

/-- `start` spawns a new task and stores it with `self.task.replace(tokio::spawn ...)`
(transfer.rs 130), then aborts the previously stored task if any (519-521);
`drop` aborts the stored task (the `Drop` impl, 527-533). -/
def transferTaskStep (s : TransferTaskState) : TransferTaskOp → TransferTaskState
  | .start =>
    match s.task with
    | some t =>
      { task := some s.next
        live := (s.next :: s.live).erase t
        aborted := t :: s.aborted
        next := s.next + 1 }
    | none =>
      { task := some s.next
        live := s.next :: s.live
        aborted := s.aborted
        next := s.next + 1 }
  | .drop =>
    match s.task with
    | some t =>
      { task := none
        live := s.live.erase t
        aborted := t :: s.aborted
        next := s.next }
    | none => s

/-- State after a sequence of operations on a fresh `OutgoingServerTransfer`. -/
def transferTaskRun (ops : List TransferTaskOp) : TransferTaskState :=
  ops.foldl transferTaskStep initialTransferTaskState

/-- Invariant: the live tasks are exactly the stored one, and any stored id is
below the next spawn id. -/
def TransferTaskInv (s : TransferTaskState) : Prop :=
  s.live = s.task.toList ∧ ∀ t, s.task = some t → t < s.next

theorem transferTaskStep_inv {s : TransferTaskState} (h : TransferTaskInv s)
    (op : TransferTaskOp) : TransferTaskInv (transferTaskStep s op) := by
  obtain ⟨hlive, hbound⟩ := h
  cases op with
  | start =>
    cases htask : s.task with
    | none =>
      refine ⟨?_, ?_⟩
      · simp [transferTaskStep, htask, hlive]
      · intro u hu
        simp [transferTaskStep, htask] at hu ⊢
        omega
    | some t =>
      have ht : t < s.next := hbound t htask
      have hne : s.next ≠ t := by omega
      refine ⟨?_, ?_⟩
      · simp [transferTaskStep, htask, hlive, List.erase_cons, hne]
      · intro u hu
        simp [transferTaskStep, htask] at hu ⊢
        omega
  | drop =>
    cases htask : s.task with
    | none =>
      simp [transferTaskStep, htask]
      exact ⟨hlive.trans (by simp [htask]), hbound⟩
    | some t =>
      constructor
      · simp [transferTaskStep, htask, hlive, htask]
      · intro u hu
        simp [transferTaskStep, htask] at hu

theorem transferTaskRun_inv (ops : List TransferTaskOp) :
    TransferTaskInv (transferTaskRun ops) := by
  have : ∀ (l : List TransferTaskOp) (s : TransferTaskState), TransferTaskInv s →
      TransferTaskInv (l.foldl transferTaskStep s) := by
    intro l
    induction l with
    | nil => intro s hs; exact hs
    | cons op rest ih =>
      intro s hs
      exact ih _ (transferTaskStep_inv hs op)
  exact this ops initialTransferTaskState ⟨rfl, by intro t h; cases h⟩

/-! ## C10 -/

/-- C10: a transfer holds at most one live task after any sequence of start/drop
operations; each `start` stores the newly spawned handle and aborts the
previously stored task if one existed; `drop` aborts the stored task. -/
theorem c10_single_live_task (ops : List TransferTaskOp) (s : TransferTaskState)
    (t : Nat) :
    (transferTaskRun ops).live.length ≤ 1 ∧
    (t ∈ (transferTaskRun ops).live → (transferTaskRun ops).task = some t) ∧
    (transferTaskStep s .start).task = some s.next ∧
    (s.task = some t → t ∈ (transferTaskStep s .start).aborted) ∧
    (s.task = some t →
      t ∈ (transferTaskStep s .drop).aborted ∧ (transferTaskStep s .drop).task = none) := by
  obtain ⟨hlive, -⟩ := transferTaskRun_inv ops
  refine ⟨?_, ?_, ?_, ?_, ?_⟩
  · rw [hlive]
    cases (transferTaskRun ops).task <;> simp
  · intro hmem
    rw [hlive] at hmem
    cases h : (transferTaskRun ops).task with
    | none => rw [h] at hmem; simp at hmem
    | some u => rw [h] at hmem; simp at hmem; simp [h, hmem]
  · cases h : s.task <;> simp [transferTaskStep, h]
  · intro h
    simp [transferTaskStep, h]
  · intro h
    simp [transferTaskStep, h]

/-- Witness for `c10_single_live_task` at a concrete input. -/
theorem c10_single_live_task_witness :
    (transferTaskStep { task := some 3, live := [3], aborted := [], next := 4 }
        .drop).task = none :=
  ((c10_single_live_task [] { task := some 3, live := [3], aborted := [], next := 4 }
      3).2.2.2.2 rfl).2

/-! ## Object-store multipart backup upload (src/application/src/server/backup/s3.rs) -/

/-- Outcome of one PUT of a part to its signed URL: a 2xx response carrying an
ETag header (`response.status().is_success()`), a non-2xx response, or a
transport error (`reqwest` `Err`). -/
inductive PutOutcome where
  | success : String → PutOutcome
  | httpError : PutOutcome
  | connectError : PutOutcome
  deriving DecidableEq

/-- The per-part retry loop of `create_backup` (s3.rs 233-303).  `attempts`
counts attempts already made; the loop increments it, aborts once it exceeds
50, and otherwise performs attempt number `attempts + 1`, whose outcome is
`outcomes (attempts + 1)`.  On a 2xx response the attempt number and ETag are
returned; otherwise the loop retries.  Returns `none` when 50 attempts all
failed. -/
def uploadPartAttempts (outcomes : Nat → PutOutcome) (attempts : Nat) :
    Option (Nat × String) :=
  if _h : 50 ≤ attempts then none
  else
    match outcomes (attempts + 1) with
    | .success e => some (attempts + 1, e)
    | .httpError => uploadPartAttempts outcomes (attempts + 1)
    | .connectError => uploadPartAttempts outcomes (attempts + 1)
termination_by 50 - attempts
decreasing_by all_goals omega

/-- The sleeps performed by the retry loop: after a connect error on attempt
`a` the loop sleeps `2 * a` seconds (s3.rs 300); non-2xx responses retry
without sleeping. -/
def uploadPartSleeps (outcomes : Nat → PutOutcome) (attempts : Nat) : List Nat :=
  if _h : 50 ≤ attempts then []
  else
    match outcomes (attempts + 1) with
    | .success _ => []
    | .httpError => uploadPartSleeps outcomes (attempts + 1)
    | .connectError => 2 * (attempts + 1) :: uploadPartSleeps outcomes (attempts + 1)
termination_by 50 - attempts
decreasing_by all_goals omega

/-- A part as recorded into the `parts` vector (s3.rs 305-308). -/
structure RawServerBackupPart where
  etag : String
  partNumber : Nat
  deriving DecidableEq

/-- Trace of one uploaded part: the `BoundedReader` window (offset and length,
s3.rs 230-231 and 257-262) together with the recorded part. -/
structure UploadedPart where
  offset : Nat
  length : Nat
  part : RawServerBackupPart
  deriving DecidableEq

/-- The multipart upload loop of `create_backup` (s3.rs 227-314): iterate over
the signed URLs with `remaining` initially the scratch-file size; for URL `i`
read from `offset = size - remaining` a window of `min remaining partSize`
bytes, run the retry loop, record the ETag as part number `i + 1`, and subtract
the window length from `remaining`.  After the loop, a leftover
`remaining > 0` fails the backup. -/
def multipartGo (size partSize : Nat) (outcomesList : List (Nat → PutOutcome))
    (remaining i : Nat) : Except String (List UploadedPart) :=
  match outcomesList with
  | [] => if remaining > 0 then .error "failed to upload all parts" else .ok []
  | o :: rest =>
    let offset := size - remaining
    let plen := min remaining partSize
    match uploadPartAttempts o 0 with
    | none => .error "Failed to upload part after 50 attempts"
    | some (_, etag) =>
      match multipartGo size partSize rest (remaining - plen) (i + 1) with
      | .error e => .error e
      | .ok parts => .ok (⟨offset, plen, ⟨etag, i + 1⟩⟩ :: parts)

/-- The whole multipart phase, entered with `remaining = size` (s3.rs 227). -/
def multipartUpload (size partSize : Nat)
    (outcomesList : List (Nat → PutOutcome)) : Except String (List UploadedPart) :=
  multipartGo size partSize outcomesList size 0

/-- A successful retry-loop result names an attempt in `attempts + 1 .. 50`
whose outcome was a 2xx response, with no earlier successful attempt. -/
theorem uploadPartAttempts_spec (o : Nat → PutOutcome) :
    ∀ (n attempts a : Nat) (e : String), 50 - attempts ≤ n →
      uploadPartAttempts o attempts = some (a, e) →
      attempts < a ∧ a ≤ 50 ∧ o a = PutOutcome.success e ∧
        ∀ b, attempts < b → b < a → ∀ e2, o b ≠ PutOutcome.success e2 := by
  intro n
  induction n with
  | zero =>
    intro attempts a e hn hsome
    rw [uploadPartAttempts] at hsome
    rw [dif_pos (by omega : 50 ≤ attempts)] at hsome
    cases hsome
  | succ n ih =>
    intro attempts a e hn hsome
    rw [uploadPartAttempts] at hsome
    by_cases h50 : 50 ≤ attempts
    · rw [dif_pos h50] at hsome
      cases hsome
    · rw [dif_neg h50] at hsome
      cases hout : o (attempts + 1) with
      | success e2 =>
        rw [hout] at hsome
        obtain ⟨rfl, rfl⟩ : a = attempts + 1 ∧ e = e2 := by
          injection hsome with h1
          injection h1 with h2 h3
          exact ⟨h2.symm, h3.symm⟩
        refine ⟨by omega, by omega, hout, ?_⟩
        intro b hb1 hb2
        omega
      | httpError =>
        rw [hout] at hsome
        obtain ⟨h1, h2, h3, h4⟩ := ih (attempts + 1) a e (by omega) hsome
        refine ⟨by omega, h2, h3, ?_⟩
        intro b hb1 hb2 e2
        rcases Nat.lt_or_ge (attempts + 1) b with hb | hb
        · exact h4 b hb hb2 e2
        · have : b = attempts + 1 := by omega
          rw [this, hout]
          intro hcontra
          cases hcontra
      | connectError =>
        rw [hout] at hsome
        obtain ⟨h1, h2, h3, h4⟩ := ih (attempts + 1) a e (by omega) hsome
        refine ⟨by omega, h2, h3, ?_⟩
        intro b hb1 hb2 e2
        rcases Nat.lt_or_ge (attempts + 1) b with hb | hb
        · exact h4 b hb hb2 e2
        · have : b = attempts + 1 := by omega
          rw [this, hout]
          intro hcontra
          cases hcontra

/-- If no attempt in `attempts + 1 .. 50` gets a 2xx, the retry loop aborts. -/
theorem uploadPartAttempts_none (o : Nat → PutOutcome) :
    ∀ (n attempts : Nat), 50 - attempts ≤ n →
      (∀ a, attempts < a → a ≤ 50 → ∀ e, o a ≠ PutOutcome.success e) →
      uploadPartAttempts o attempts = none := by
  intro n
  induction n with
  | zero =>
    intro attempts hn hfail
    rw [uploadPartAttempts]
    rw [dif_pos (by omega : 50 ≤ attempts)]
  | succ n ih =>
    intro attempts hn hfail
    rw [uploadPartAttempts]
    by_cases h50 : 50 ≤ attempts
    · rw [dif_pos h50]
    · rw [dif_neg h50]
      cases hout : o (attempts + 1) with
      | success e =>
        exact absurd hout (hfail (attempts + 1) (by omega) (by omega) e)
      | httpError =>
        exact ih (attempts + 1) (by omega) fun a ha1 ha2 => hfail a (by omega) ha2
      | connectError =>
        exact ih (attempts + 1) (by omega) fun a ha1 ha2 => hfail a (by omega) ha2

/-- The sleeps of the retry loop are exactly `2 * a` seconds for each
connect-error attempt `a ≤ 50` reached before the first 2xx. -/
theorem uploadPartSleeps_spec (o : Nat → PutOutcome) :
    ∀ (n attempts s : Nat), 50 - attempts ≤ n →
      (s ∈ uploadPartSleeps o attempts ↔
        ∃ a, attempts < a ∧ a ≤ 50 ∧ o a = PutOutcome.connectError ∧ s = 2 * a ∧
          ∀ b, attempts < b → b < a → ∀ e, o b ≠ PutOutcome.success e) := by
  intro n
  induction n with
  | zero =>
    intro attempts s hn
    rw [uploadPartSleeps, dif_pos (by omega : 50 ≤ attempts)]
    simp only [List.not_mem_nil, false_iff]
    rintro ⟨a, h1, h2, -⟩
    omega
  | succ n ih =>
    intro attempts s hn
    rw [uploadPartSleeps]
    by_cases h50 : 50 ≤ attempts
    · rw [dif_pos h50]
      simp only [List.not_mem_nil, false_iff]
      rintro ⟨a, h1, h2, -⟩
      omega
    · rw [dif_neg h50]
      cases hout : o (attempts + 1) with
      | success e =>
        simp only [List.not_mem_nil, false_iff]
        rintro ⟨a, h1, h2, h3, h4, h5⟩
        rcases Nat.lt_or_ge (attempts + 1) a with ha | ha
        · exact h5 (attempts + 1) (by omega) ha e hout
        · have : a = attempts + 1 := by omega
          rw [this, hout] at h3
          cases h3
      | httpError =>
        rw [ih (attempts + 1) s (by omega)]
        constructor
        · rintro ⟨a, h1, h2, h3, h4, h5⟩
          refine ⟨a, by omega, h2, h3, h4, ?_⟩
          intro b hb1 hb2 e
          rcases Nat.lt_or_ge (attempts + 1) b with hb | hb
          · exact h5 b hb hb2 e
          · have : b = attempts + 1 := by omega
            rw [this, hout]
            intro hcontra
            cases hcontra
        · rintro ⟨a, h1, h2, h3, h4, h5⟩
          have hane : a ≠ attempts + 1 := by
            intro heq
            rw [heq, hout] at h3
            cases h3
          exact ⟨a, by omega, h2, h3, h4, fun b hb1 hb2 => h5 b (by omega) hb2⟩
      | connectError =>
        simp only [List.mem_cons]
        rw [ih (attempts + 1) s (by omega)]
        constructor
        · rintro (rfl | ⟨a, h1, h2, h3, h4, h5⟩)
          · refine ⟨attempts + 1, by omega, by omega, hout, rfl, ?_⟩
            intro b hb1 hb2
            omega
          · refine ⟨a, by omega, h2, h3, h4, ?_⟩
            intro b hb1 hb2 e
            rcases Nat.lt_or_ge (attempts + 1) b with hb | hb
            · exact h5 b hb hb2 e
            · have : b = attempts + 1 := by omega
              rw [this, hout]
              intro hcontra
              cases hcontra
        · rintro ⟨a, h1, h2, h3, h4, h5⟩
          by_cases ha : a = attempts + 1
          · left
            rw [h4, ha]
          · right
            exact ⟨a, by omega, h2, h3, h4, fun b hb1 hb2 => h5 b (by omega) hb2⟩

/-- Characterization of a successful multipart loop entered at URL index `i`
with `remaining = size - i * partSize`. -/
theorem multipartGo_ok_spec (size P : Nat) :
    ∀ (os : List (Nat → PutOutcome)) (i : Nat) (parts : List UploadedPart),
      multipartGo size P os (size - i * P) i = .ok parts →
      parts.length = os.length ∧
      size - (i + os.length) * P = 0 ∧
      (parts.map (fun p => p.length)).sum = size - i * P ∧
      (∀ (j : Nat) (hj : j < parts.length),
        (parts.get ⟨j, hj⟩).offset = min ((i + j) * P) size ∧
        (parts.get ⟨j, hj⟩).length = min (size - (i + j) * P) P ∧
        (parts.get ⟨j, hj⟩).part.partNumber = i + j + 1 ∧
        ∃ (hjo : j < os.length) (a : Nat), 1 ≤ a ∧ a ≤ 50 ∧
          (os.get ⟨j, hjo⟩) a =
            PutOutcome.success (parts.get ⟨j, hj⟩).part.etag) := by
  intro os
  induction os with
  | nil =>
    intro i parts hok
    rw [multipartGo] at hok
    by_cases hrem : size - i * P > 0
    · rw [if_pos hrem] at hok
      cases hok
    · rw [if_neg hrem] at hok
      injection hok with h
      subst h
      have hz : size - i * P = 0 := by omega
      refine ⟨rfl, by simpa using hz, by simp [hz], ?_⟩
      intro j hj
      cases hj
  | cons o rest ih =>
    intro i parts hok
    rw [multipartGo] at hok
    cases hup : uploadPartAttempts o 0 with
    | none =>
      rw [hup] at hok
      cases hok
    | some pr =>
      obtain ⟨a0, etag0⟩ := pr
      rw [hup] at hok
      simp only at hok
      have hrec : (size - i * P) - min (size - i * P) P = size - (i + 1) * P := by
        have h1 : (i + 1) * P = i * P + P := by ring
        rw [h1]
        omega
      rw [hrec] at hok
      cases hcall : multipartGo size P rest (size - (i + 1) * P) (i + 1) with
      | error e =>
        rw [hcall] at hok
        cases hok
      | ok parts2 =>
        rw [hcall] at hok
        injection hok with h
        subst h
        obtain ⟨hlen, hend, hsum, hparts⟩ := ih (i + 1) parts2 hcall
        obtain ⟨ha1, ha2, ha3, -⟩ := uploadPartAttempts_spec o 50 0 a0 etag0 (by omega) hup
        refine ⟨by simp [hlen], ?_, ?_, ?_⟩
        · have h1 : (i + (rest.length + 1)) * P = ((i + 1) + rest.length) * P := by
            ring
          simpa [h1] using hend
        · have h1 : (i + 1) * P = i * P + P := by ring
          rw [h1] at hsum
          simp only [List.map_cons, List.sum_cons, hsum]
          omega
        · intro j hj
          cases j with
          | zero =>
            refine ⟨?_, ?_, ?_, ?_⟩
            · show size - (size - i * P) = min ((i + 0) * P) size
              simp only [Nat.add_zero]
              omega
            · show min (size - i * P) P = min (size - (i + 0) * P) P
              simp
            · simp
            · exact ⟨by simp, a0, by omega, ha2, ha3⟩
          | succ j =>
            have hj2 : j < parts2.length := by simpa using hj
            obtain ⟨p1, p2, p3, hjo, a, hA1, hA2, hA3⟩ := hparts j hj2
            have harith : (i + 1) + j = i + (j + 1) := by omega
            rw [harith] at p1 p2 p3
            refine ⟨?_, ?_, ?_, ?_⟩
            · simpa [List.get_cons_succ] using p1
            · simpa [List.get_cons_succ] using p2
            · simpa [List.get_cons_succ] using p3
            · refine ⟨by simpa using hjo, a, hA1, hA2, ?_⟩
              simpa [List.get_cons_succ] using hA3

/-! ## C2 -/

/-- C2 amended: for a successful multipart upload over a scratch file of size
`size` with part size `P`, part `j` is read from offset `size - remaining`
(= `min (j * P) size`) with length `min remaining P` (= `min (size - j * P) P`),
the part lengths sum to `size`, each ETag was recorded only after a 2xx
response to one of its PUT attempts — but the number of recorded parts equals
the number of signed URLs the panel returned (which success forces to satisfy
`size ≤ urls * P`), not `ceil (size / P)` in general. -/
theorem c2_multipart_accounting (size P : Nat) (os : List (Nat → PutOutcome))
    (parts : List UploadedPart) (h : multipartUpload size P os = .ok parts) :
    parts.length = os.length ∧
    (parts.map (fun p => p.length)).sum = size ∧
    size ≤ os.length * P ∧
    ∀ (j : Nat) (hj : j < parts.length),
      (parts.get ⟨j, hj⟩).offset = min (j * P) size ∧
      (parts.get ⟨j, hj⟩).length = min (size - j * P) P ∧
      (parts.get ⟨j, hj⟩).part.partNumber = j + 1 ∧
      ∃ (hjo : j < os.length) (a : Nat), 1 ≤ a ∧ a ≤ 50 ∧
        (os.get ⟨j, hjo⟩) a =
          PutOutcome.success (parts.get ⟨j, hj⟩).part.etag := by
  have h0 : multipartGo size P os (size - 0 * P) 0 = .ok parts := by
    simpa [multipartUpload] using h
  obtain ⟨hlen, hend, hsum, hparts⟩ := multipartGo_ok_spec size P os 0 parts h0
  have hend2 : size - os.length * P = 0 := by simpa using hend
  refine ⟨hlen, by simpa using hsum, by omega, ?_⟩
  intro j hj
  simpa using hparts j hj

/-- A PUT outcome stream whose every attempt gets a 2xx with ETag "e". -/
def constSuccessE : Nat → PutOutcome := fun _ => PutOutcome.success "e"

/-- Witness for `c2_multipart_accounting` at a concrete input. -/
theorem c2_multipart_accounting_witness :
    multipartUpload 3 4 [constSuccessE] = .ok [⟨0, 3, ⟨"e", 1⟩⟩] ∧
    ([(⟨0, 3, ⟨"e", 1⟩⟩ : UploadedPart)].length = [constSuccessE].length ∧
      ([(⟨0, 3, ⟨"e", 1⟩⟩ : UploadedPart)].map (fun p => p.length)).sum = 3) := by
  have hup : uploadPartAttempts constSuccessE 0 = some (1, "e") := by
    rw [uploadPartAttempts]
    rfl
  have h : multipartUpload 3 4 [constSuccessE] = .ok [⟨0, 3, ⟨"e", 1⟩⟩] := by
    rw [multipartUpload, multipartGo, hup]
    rw [multipartGo]
    rfl
  have hfacts := c2_multipart_accounting 3 4 [constSuccessE] [⟨0, 3, ⟨"e", 1⟩⟩] h
  exact ⟨h, hfacts.1, hfacts.2.1⟩

/-- A constantly-successful PUT outcome stream (every attempt gets a 2xx with
ETag "etag-a"). -/
def constSuccessOutcome : Nat → PutOutcome := fun _ => PutOutcome.success "etag-a"

/-- C2 is false as stated on the part count: a scratch file of size 10 with
part size 4 and five signed URLs (all PUTs succeeding) completes successfully
with 5 recorded parts — two of them empty — while `ceil (10 / 4) = 3`. -/
theorem c2_counterexample :
    multipartUpload 10 4
        [constSuccessOutcome, constSuccessOutcome, constSuccessOutcome,
          constSuccessOutcome, constSuccessOutcome] =
      .ok [⟨0, 4, ⟨"etag-a", 1⟩⟩, ⟨4, 4, ⟨"etag-a", 2⟩⟩, ⟨8, 2, ⟨"etag-a", 3⟩⟩,
        ⟨10, 0, ⟨"etag-a", 4⟩⟩, ⟨10, 0, ⟨"etag-a", 5⟩⟩] ∧
    (10 + 4 - 1) / 4 = 3 ∧ (5 : Nat) ≠ 3 := by
  have hup : uploadPartAttempts constSuccessOutcome 0 = some (1, "etag-a") := by
    rw [uploadPartAttempts]
    rfl
  refine ⟨?_, by norm_num, by norm_num⟩
  rw [multipartUpload, multipartGo, hup]
  rw [multipartGo, hup]
  rw [multipartGo, hup]
  rw [multipartGo, hup]
  rw [multipartGo, hup]
  rw [multipartGo]
  rfl

/-! ## C3 -/

/-- C3: the object-store part upload makes at most 50 attempts (a success is
some attempt `a ≤ 50` with a 2xx outcome and no earlier success), sleeps
exactly `2 * a` seconds after each connect-error attempt `a`, and when no
attempt among the first 50 succeeds the retry loop yields no ETag and the
whole backup fails with an error. -/
theorem c3_retry_bounds (o : Nat → PutOutcome) :
    (∀ (a : Nat) (e : String), uploadPartAttempts o 0 = some (a, e) →
      1 ≤ a ∧ a ≤ 50 ∧ o a = PutOutcome.success e ∧
        ∀ b, 1 ≤ b → b < a → ∀ e2, o b ≠ PutOutcome.success e2) ∧
    (∀ s, s ∈ uploadPartSleeps o 0 ↔
      ∃ a, 1 ≤ a ∧ a ≤ 50 ∧ o a = PutOutcome.connectError ∧ s = 2 * a ∧
        ∀ b, 1 ≤ b → b < a → ∀ e, o b ≠ PutOutcome.success e) ∧
    ((∀ a, 1 ≤ a → a ≤ 50 → ∀ e, o a ≠ PutOutcome.success e) →
      uploadPartAttempts o 0 = none ∧
      ∀ (size P : Nat) (rest : List (Nat → PutOutcome)),
        multipartUpload size P (o :: rest) =
          .error "Failed to upload part after 50 attempts") := by
  refine ⟨?_, ?_, ?_⟩
  · intro a e hsome
    obtain ⟨h1, h2, h3, h4⟩ := uploadPartAttempts_spec o 50 0 a e (by omega) hsome
    exact ⟨by omega, h2, h3, fun b hb1 hb2 => h4 b (by omega) hb2⟩
  · intro s
    rw [uploadPartSleeps_spec o 50 0 s (by omega)]
    constructor
    · rintro ⟨a, h1, h2, h3, h4, h5⟩
      exact ⟨a, by omega, h2, h3, h4, fun b hb1 hb2 => h5 b (by omega) hb2⟩
    · rintro ⟨a, h1, h2, h3, h4, h5⟩
      exact ⟨a, by omega, h2, h3, h4, fun b hb1 hb2 => h5 b (by omega) hb2⟩
  · intro hfail
    have hnone : uploadPartAttempts o 0 = none :=
      uploadPartAttempts_none o 50 0 (by omega)
        fun a ha1 ha2 => hfail a (by omega) ha2
    refine ⟨hnone, ?_⟩
    intro size P rest
    rw [multipartUpload, multipartGo, hnone]

/-- A PUT outcome stream whose every attempt gets a non-2xx response. -/
def constHttpError : Nat → PutOutcome := fun _ => PutOutcome.httpError

/-- Witness for `c3_retry_bounds` at a concrete input. -/
theorem c3_retry_bounds_witness :
    uploadPartAttempts constHttpError 0 = none ∧
    ∀ (size P : Nat) (rest : List (Nat → PutOutcome)),
      multipartUpload size P (constHttpError :: rest) =
        .error "Failed to upload part after 50 attempts" :=
  (c3_retry_bounds constHttpError).2.2
    (fun a _ _ e h => by simp [constHttpError] at h)

/-! ## Archive size estimation (src/application/src/server/filesystem/archive/mod.rs) -/

/-- Little-endian value of a list of bytes. -/
def leBytes (bs : List Nat) : Nat := bs.foldr (fun b acc => b + 256 * acc) 0

/-- The zstd frame magic number 0x28 0xB5 0x2F 0xFD. -/
def zstdMagic : List Nat := [0x28, 0xB5, 0x2F, 0xFD]

/-- The zstd branch of `Archive::estimated_size` (archive/mod.rs 204-246),
operating on the 16 header bytes read by `Archive::open`: it takes
`fcs_flag = frame_header_descriptor & 0x03` and
`single_segment = frame_header_descriptor & 0x20 != 0`, maps the flag to a
field width of 1/2/4/8 bytes (1 only in single-segment frames), and decodes
that many bytes little-endian starting at byte 5 of the header. -/
def estimatedSizeZstd (header : List Nat) : Option Nat :=
  if header.take 4 ≠ zstdMagic then none
  else
    let fhd := header.getD 4 0
    let fcsFlag := fhd % 4
    let singleSegment := fhd / 32 % 2 = 1
    if fcsFlag = 0 ∧ ¬singleSegment then none
    else
      let sizeBuffer := (header.drop 5).take 8
      match fcsFlag with
      | 0 => if singleSegment then some (sizeBuffer.getD 0 0) else none
      | 1 => some (leBytes (sizeBuffer.take 2))
      | 2 => some (leBytes (sizeBuffer.take 4))
      | 3 => some (leBytes (sizeBuffer.take 8))
      | _ => none

/-- Modelled from the zstd format specification (RFC 8878, section 3.1.1),
which C4 references: in the frame header, the Frame_Content_Size_flag is the
TOP two bits (bits 7-6) of the Frame_Header_Descriptor byte;
Single_Segment_flag is bit 5 and the Dictionary_ID_flag the low two bits.
The Frame_Content_Size field has width 1/2/4/8 bytes for flag values 0/1/2/3
(width 1 exists only when Single_Segment_flag is set; flag 0 without
Single_Segment means no content size).  The field is located after the
descriptor byte, the Window_Descriptor byte (absent only in single-segment
frames) and the Dictionary_ID (0/1/2/4 bytes per the Dictionary_ID_flag), is
little-endian, and for the 2-byte width the stored value is offset by 256. -/
def zstdSpecFrameContentSize (frame : List Nat) : Option Nat :=
  if frame.take 4 ≠ zstdMagic then none
  else
    let fhd := frame.getD 4 0
    let fcsFlag := fhd / 64
    let singleSegment := fhd / 32 % 2 = 1
    let dictIdSize := [0, 1, 2, 4].getD (fhd % 4) 0
    let windowSize : Nat := if singleSegment then 0 else 1
    let start := 5 + windowSize + dictIdSize
    let fieldWidth : Option Nat :=
      match fcsFlag with
      | 0 => if singleSegment then some 1 else none
      | 1 => some 2
      | 2 => some 4
      | _ => some 8
    match fieldWidth with
    | none => none
    | some w =>
      let v := leBytes ((frame.drop start).take w)
      some (if w = 2 then v + 256 else v)

/-- A well-formed zstd frame header: magic, then descriptor byte 0x64
(Frame_Content_Size_flag = 1 in bits 7-6, Single_Segment_flag set,
Content_Checksum_flag set, no dictionary), then the 2-byte content size field
0x00 0x00, denoting a frame content size of 0 + 256 = 256 bytes.  This is the
header shape the reference zstd encoder emits for single-segment frames of
256 .. 65791 bytes. -/
def zstdBugFrame : List Nat :=
  [0x28, 0xB5, 0x2F, 0xFD, 0x64, 0x00, 0x00, 0x00, 0x00, 0x00, 0x00, 0x00,
    0x00, 0x00, 0x00, 0x00]

/-! ## C4 -/

/-- C4 names a code bug: on a valid zstd frame whose Frame_Content_Size_flag
(top two bits of the descriptor) is 1, `estimated_size` reads the flag from
the LOW two bits (the Dictionary_ID_flag), treats the frame as having a
one-byte field, and also omits the +256 bias of the two-byte field — it
returns 0 where the zstd specification decodes 256. -/
theorem c4_zstd_fcs_divergence :
    estimatedSizeZstd zstdBugFrame = some 0 ∧
    zstdSpecFrameContentSize zstdBugFrame = some 256 ∧
    (0 : Nat) ≠ 256 := by
  refine ⟨?_, ?_, by norm_num⟩
  · rfl
  · rfl

/-! ## Local (wings) backup file resolution (src/application/src/server/backup/wings.rs) -/

/-- The four wings backup archive formats
(`SystemBackupsWingsArchiveFormat`). -/
inductive WingsArchiveFormat where
  | tar
  | tarGz
  | tarZstd
  | zip
  deriving DecidableEq

/-- Extension used by `get_tar_file_name` / `get_tar_gz_file_name` /
`get_tar_zstd_file_name` / `get_zip_file_name` (wings.rs 30-48). -/
def wingsFormatExtension : WingsArchiveFormat → String
  | .tar => ".tar"
  | .tarGz => ".tar.gz"
  | .tarZstd => ".tar.zst"
  | .zip => ".zip"

/-- Candidate backup file path `<backup_dir>/<uuid><ext>` (wings.rs 30-48). -/
def wingsBackupFileName (backupDir uuid : String) (f : WingsArchiveFormat) : String :=
  backupDir ++ "/" ++ uuid ++ wingsFormatExtension f

/-- The probing order of `get_first_file_name` (wings.rs 62-100). -/
def wingsFormatOrder : List WingsArchiveFormat := [.tar, .tarGz, .tarZstd, .zip]

/-- `get_first_file_name` (wings.rs 62-100): probe the candidate paths for
.tar, .tar.gz, .tar.zst and .zip in that order and return the first that
exists with its format; error when none does.  `fileOk p` models
`tokio::fs::metadata(p).await.is_ok()`.  `restore_backup` (wings.rs 310),
`download_backup` (549) and `delete_backup` (603) each resolve the backup file
by calling this function. -/
def getFirstFileName (fileOk : String → Bool) (backupDir uuid : String) :
    Except String (WingsArchiveFormat × String) :=
  if fileOk (wingsBackupFileName backupDir uuid .tar) then
    .ok (.tar, wingsBackupFileName backupDir uuid .tar)
  else if fileOk (wingsBackupFileName backupDir uuid .tarGz) then
    .ok (.tarGz, wingsBackupFileName backupDir uuid .tarGz)
  else if fileOk (wingsBackupFileName backupDir uuid .tarZstd) then
    .ok (.tarZstd, wingsBackupFileName backupDir uuid .tarZstd)
  else if fileOk (wingsBackupFileName backupDir uuid .zip) then
    .ok (.zip, wingsBackupFileName backupDir uuid .zip)
  else
    .error ("No backup file found for UUID: " ++ uuid)

/-! ## C8 -/

/-- C8: backup resolution returns the first existing candidate among
.tar, .tar.gz, .tar.zst, .zip in that order, together with its format, and
fails with an error exactly when none of the four exists. -/
theorem c8_backup_probe_order (fileOk : String → Bool) (backupDir uuid : String) :
    getFirstFileName fileOk backupDir uuid =
      match wingsFormatOrder.find?
          (fun f => fileOk (wingsBackupFileName backupDir uuid f)) with
      | some f => .ok (f, wingsBackupFileName backupDir uuid f)
      | none => .error ("No backup file found for UUID: " ++ uuid) := by
  by_cases h1 : fileOk (wingsBackupFileName backupDir uuid .tar) <;>
    by_cases h2 : fileOk (wingsBackupFileName backupDir uuid .tarGz) <;>
      by_cases h3 : fileOk (wingsBackupFileName backupDir uuid .tarZstd) <;>
        by_cases h4 : fileOk (wingsBackupFileName backupDir uuid .zip) <;>
          simp [getFirstFileName, wingsFormatOrder, List.find?, h1, h2, h3, h4]

/-! ## Archive extraction dispatch (archive/mod.rs `Archive::extract`,
backup/wings.rs and backup/s3.rs `restore_backup`) -/

/-- A filesystem operation issued through the confined filesystem engine. -/
inductive FsOp where
  | createDirAll : String → FsOp
  | setPermissions : String → Nat → FsOp
  | writeFile : String → Option Nat → Option Nat → FsOp
  | makeSymlink : String → String → FsOp
  deriving DecidableEq

/-- Whether an operation is a set-permissions call. -/
def FsOp.isSetPermissions : FsOp → Bool
  | .setPermissions _ _ => true
  | _ => false

/-- Tar entry types as dispatched by the extraction loops; every type other
than Directory/Regular/Symlink (hard links, fifos, ...) falls into `other`. -/
inductive TarEntryType where
  | directory
  | regular
  | symlink
  | other
  deriving DecidableEq

/-- A decoded tar entry.  `mode` is `header.mode()` (`none` when the octal
mode field fails to parse), `mtime` is `header.mtime()`, `linkName` is
`entry.link_name()` flattened (`none` when absent or unreadable, replaced by
the empty string via `unwrap_or_default`). -/
structure TarEntry where
  path : String
  entryType : TarEntryType
  mode : Option Nat
  mtime : Option Nat
  linkName : Option String
  deriving DecidableEq

/-- `Path::is_absolute` for the unix paths stored in archive entries: the
path begins with the separator. -/
def isAbsolutePath (s : String) : Bool := s.data.head? == some '/'

/-- `Path::join` for the destination paths built during extraction. -/
def joinPath (a b : String) : String :=
  if isAbsolutePath b then b else a ++ "/" ++ b

/-- `Path::parent` of a unix path string: none for the root and the empty
path, otherwise the path with its last component (and its separator, except
for the root) dropped. -/
def parentDir (s : String) : Option String :=
  if s = "" ∨ s = "/" then none
  else
    let rest := (s.data.reverse.dropWhile (fun c => c ≠ '/'))
    if rest = ['/'] then some "/"
    else some (String.mk (rest.drop 1).reverse)

/-- Per-entry filesystem operations of the tar branch of `Archive::extract`
(archive/mod.rs 301-368): skip absolute stored paths, skip ignored
destination paths; a Directory yields create-dir-all and — only if the header
mode parses — set-permissions; a Regular yields parent creation and a
stream-copy through a writer carrying the header's mode and mtime; a Symlink
yields the engine's symlink creator with the stored link name; every other
entry type yields nothing. -/
def extractTarEntryOps (ignored : String → Bool → Bool) (destination : String)
    (e : TarEntry) : List FsOp :=
  if isAbsolutePath e.path then []
  else
    let dest := joinPath destination e.path
    if ignored dest (e.entryType = .directory) then []
    else
      match e.entryType with
      | .directory =>
        FsOp.createDirAll dest ::
          (match e.mode with
           | some m => [FsOp.setPermissions dest m]
           | none => [])
      | .regular =>
        ((parentDir dest).toList.map FsOp.createDirAll) ++
          [FsOp.writeFile dest e.mode e.mtime]
      | .symlink => [FsOp.makeSymlink (e.linkName.getD "") dest]
      | .other => []

/-- Per-entry filesystem operations of the tar restore loops of
`restore_backup` (backup/wings.rs 337-411 and backup/s3.rs 356-424): same
dispatch as extraction but on the entry path itself, with default modes
0o755 (directories) and 0o644 (regular files) when the header mode fails to
parse. -/
def restoreTarEntryOps (ignored : String → Bool → Bool) (e : TarEntry) : List FsOp :=
  if isAbsolutePath e.path then []
  else if ignored e.path (e.entryType = .directory) then []
  else
    match e.entryType with
    | .directory =>
      [FsOp.createDirAll e.path, FsOp.setPermissions e.path (e.mode.getD 0o755)]
    | .regular =>
      ((parentDir e.path).toList.map FsOp.createDirAll) ++
        [FsOp.writeFile e.path (some (e.mode.getD 0o644)) e.mtime]
    | .symlink => [FsOp.makeSymlink (e.linkName.getD "") e.path]
    | .other => []

/-! ## C6 -/

/-- C6 is false as stated on one point: during `Archive::extract`, a directory
entry whose header mode field does not parse (`header.mode()` is `Err`, the
guard on archive/mod.rs 322) yields create-dir-all but NO set-permissions
call. -/
theorem c6_counterexample :
    extractTarEntryOps (fun _ _ => false) "dest"
        { path := "srv", entryType := .directory, mode := none, mtime := none,
          linkName := none } =
      [FsOp.createDirAll "dest/srv"] ∧
    (extractTarEntryOps (fun _ _ => false) "dest"
        { path := "srv", entryType := .directory, mode := none, mtime := none,
          linkName := none }).any FsOp.isSetPermissions = false := by
  constructor
  · decide
  · decide

/-- C6 amended: in both the extraction and the tar-restore loops, an entry
with an absolute stored path or an ignored destination path causes no
filesystem operation; a directory entry yields create-dir-all plus
set-permissions — except that extraction skips set-permissions when the
header mode does not parse, while restore falls back to mode 0o755; a regular
entry yields parent creation and a stream-copy through a writer with the
header's mode (restore default 0o644) and mtime; a symlink entry yields the
engine's symlink creator with the stored link name; all other entry types are
ignored. -/
theorem c6_tar_entry_dispatch (ignored : String → Bool → Bool)
    (destination : String) (e : TarEntry) :
    (isAbsolutePath e.path = true →
      extractTarEntryOps ignored destination e = [] ∧
      restoreTarEntryOps ignored e = []) ∧
    (ignored (joinPath destination e.path) (e.entryType = .directory) = true →
      extractTarEntryOps ignored destination e = []) ∧
    (ignored e.path (e.entryType = .directory) = true →
      restoreTarEntryOps ignored e = []) ∧
    (isAbsolutePath e.path = false →
      ignored (joinPath destination e.path) (e.entryType = .directory) = false →
      (e.entryType = .directory →
        (∀ m, e.mode = some m →
          extractTarEntryOps ignored destination e =
            [FsOp.createDirAll (joinPath destination e.path),
              FsOp.setPermissions (joinPath destination e.path) m]) ∧
        (e.mode = none →
          extractTarEntryOps ignored destination e =
            [FsOp.createDirAll (joinPath destination e.path)])) ∧
      (e.entryType = .regular →
        extractTarEntryOps ignored destination e =
          ((parentDir (joinPath destination e.path)).toList.map FsOp.createDirAll) ++
            [FsOp.writeFile (joinPath destination e.path) e.mode e.mtime]) ∧
      (e.entryType = .symlink →
        extractTarEntryOps ignored destination e =
          [FsOp.makeSymlink (e.linkName.getD "") (joinPath destination e.path)]) ∧
      (e.entryType = .other → extractTarEntryOps ignored destination e = [])) ∧
    (isAbsolutePath e.path = false →
      ignored e.path (e.entryType = .directory) = false →
      (e.entryType = .directory →
        restoreTarEntryOps ignored e =
          [FsOp.createDirAll e.path,
            FsOp.setPermissions e.path (e.mode.getD 0o755)]) ∧
      (e.entryType = .regular →
        restoreTarEntryOps ignored e =
          ((parentDir e.path).toList.map FsOp.createDirAll) ++
            [FsOp.writeFile e.path (some (e.mode.getD 0o644)) e.mtime]) ∧
      (e.entryType = .symlink →
        restoreTarEntryOps ignored e =
          [FsOp.makeSymlink (e.linkName.getD "") e.path]) ∧
      (e.entryType = .other → restoreTarEntryOps ignored e = [])) := by
  refine ⟨?_, ?_, ?_, ?_, ?_⟩
  · intro habs
    exact ⟨by simp [extractTarEntryOps, habs], by simp [restoreTarEntryOps, habs]⟩
  · intro hign
    by_cases habs : isAbsolutePath e.path <;>
      simp [extractTarEntryOps, habs, hign]
  · intro hign
    by_cases habs : isAbsolutePath e.path <;>
      simp [restoreTarEntryOps, habs, hign]
  · intro habs hign
    refine ⟨?_, ?_, ?_, ?_⟩
    · intro htype
      rw [htype] at hign
      simp at hign
      constructor
      · intro m hm
        simp [extractTarEntryOps, habs, hign, htype, hm]
      · intro hm
        simp [extractTarEntryOps, habs, hign, htype, hm]
    · intro htype
      rw [htype] at hign
      simp at hign
      simp [extractTarEntryOps, habs, hign, htype]
    · intro htype
      rw [htype] at hign
      simp at hign
      simp [extractTarEntryOps, habs, hign, htype]
    · intro htype
      rw [htype] at hign
      simp at hign
      simp [extractTarEntryOps, habs, hign, htype]
  · intro habs hign
    refine ⟨?_, ?_, ?_, ?_⟩ <;> intro htype <;> rw [htype] at hign <;>
      simp at hign <;> simp [restoreTarEntryOps, habs, hign, htype]

/-- Witness for `c6_tar_entry_dispatch` at a concrete input. -/
theorem c6_tar_entry_dispatch_witness :
    extractTarEntryOps (fun _ _ => false) "d"
        { path := "a/b", entryType := .regular, mode := some 0o644,
          mtime := some 100, linkName := none } =
      ((parentDir (joinPath "d" "a/b")).toList.map FsOp.createDirAll) ++
        [FsOp.writeFile (joinPath "d" "a/b") (some 0o644) (some 100)] :=
  ((c6_tar_entry_dispatch (fun _ _ => false) "d"
      { path := "a/b", entryType := .regular, mode := some 0o644,
        mtime := some 100, linkName := none }).2.2.2.1
    (by decide) (by decide)).2.1 rfl

/-! ## Zip extraction entries (archive/mod.rs 409-465, backup/wings.rs 464-522) -/

/-- A decoded zip entry as seen by the extraction/restore workers.
`enclosedName` is `entry.enclosed_name()` (`none` for unsafe names),
`contentsUtf8` is the result of `std::io::read_to_string(entry)` (`none` when
the raw contents are not valid UTF-8, in which case the code substitutes the
empty string via `unwrap_or_default`). -/
structure ZipEntry where
  enclosedName : Option String
  isDir : Bool
  isFile : Bool
  isSymlink : Bool
  size : Nat
  unixMode : Option Nat
  mtime : Option Nat
  contentsUtf8 : Option String
  deriving DecidableEq

/-- Per-entry filesystem operations of the zip branch of `Archive::extract`
(archive/mod.rs 409-465): entries without an enclosed name or with an
absolute name are skipped, then the ignore check runs on the destination
path; directories get create-dir-all and set-permissions (default mode
0o755), files get parent creation plus a stream-copy, and a symlink entry is
materialised only when its stored size lies in 1 ..= 2048, with the link
target being the entry contents read as UTF-8 (empty on invalid UTF-8). -/
def extractZipEntryOps (ignored : String → Bool → Bool) (destination : String)
    (e : ZipEntry) : List FsOp :=
  match e.enclosedName with
  | none => []
  | some p =>
    if isAbsolutePath p then []
    else
      let dest := joinPath destination p
      if ignored dest e.isDir then []
      else if e.isDir then
        [FsOp.createDirAll dest, FsOp.setPermissions dest (e.unixMode.getD 0o755)]
      else if e.isFile then
        ((parentDir dest).toList.map FsOp.createDirAll) ++
          [FsOp.writeFile dest e.unixMode e.mtime]
      else if e.isSymlink ∧ 1 ≤ e.size ∧ e.size ≤ 2048 then
        [FsOp.makeSymlink (e.contentsUtf8.getD "") dest]
      else []

/-- Per-entry filesystem operations of the zip branch of `restore_backup`
(backup/wings.rs 464-522): identical dispatch on the entry path itself. -/
def restoreZipEntryOps (ignored : String → Bool → Bool) (e : ZipEntry) : List FsOp :=
  match e.enclosedName with
  | none => []
  | some p =>
    if isAbsolutePath p then []
    else if ignored p e.isDir then []
    else if e.isDir then
      [FsOp.createDirAll p, FsOp.setPermissions p (e.unixMode.getD 0o755)]
    else if e.isFile then
      ((parentDir p).toList.map FsOp.createDirAll) ++
        [FsOp.writeFile p e.unixMode e.mtime]
    else if e.isSymlink ∧ 1 ≤ e.size ∧ e.size ≤ 2048 then
      [FsOp.makeSymlink (e.contentsUtf8.getD "") p]
    else []

/-! ## C7 -/

/-- C7: during zip extraction and zip backup restore, a symlink entry (not a
directory or file entry, with a safe relative name that is not ignored) is
materialised if and only if its stored size is in 1 ..= 2048; the created
link's target is the entry's contents read as UTF-8; out-of-range symlink
entries produce no operation. -/
theorem c7_zip_symlink_size_gate (ignored : String → Bool → Bool)
    (destination p : String) (e : ZipEntry)
    (hname : e.enclosedName = some p) (habs : isAbsolutePath p = false)
    (hdir : e.isDir = false) (hfile : e.isFile = false)
    (hsym : e.isSymlink = true)
    (hignE : ignored (joinPath destination p) e.isDir = false)
    (hignR : ignored p e.isDir = false) :
    (1 ≤ e.size ∧ e.size ≤ 2048 →
      extractZipEntryOps ignored destination e =
        [FsOp.makeSymlink (e.contentsUtf8.getD "") (joinPath destination p)] ∧
      restoreZipEntryOps ignored e =
        [FsOp.makeSymlink (e.contentsUtf8.getD "") p]) ∧
    (¬(1 ≤ e.size ∧ e.size ≤ 2048) →
      extractZipEntryOps ignored destination e = [] ∧
      restoreZipEntryOps ignored e = []) ∧
    (∀ target, e.contentsUtf8 = some target → 1 ≤ e.size → e.size ≤ 2048 →
      extractZipEntryOps ignored destination e =
        [FsOp.makeSymlink target (joinPath destination p)]) := by
  rw [hdir] at hignE hignR
  refine ⟨?_, ?_, ?_⟩
  · intro hrange
    constructor
    · simp [extractZipEntryOps, hname, habs, hdir, hfile, hsym, hignE, hrange]
    · simp [restoreZipEntryOps, hname, habs, hdir, hfile, hsym, hignR, hrange]
  · intro hrange
    constructor
    · simp [extractZipEntryOps, hname, habs, hdir, hfile, hsym, hignE, hrange]
    · simp [restoreZipEntryOps, hname, habs, hdir, hfile, hsym, hignR, hrange]
  · intro target htarget h1 h2
    simp [extractZipEntryOps, hname, habs, hdir, hfile, hsym, hignE, htarget,
      h1, h2]

/-- Witness for `c7_zip_symlink_size_gate` at a concrete input. -/
theorem c7_zip_symlink_size_gate_witness :
    extractZipEntryOps (fun _ _ => false) "d"
        { enclosedName := some "lnk", isDir := false, isFile := false,
          isSymlink := true, size := 5, unixMode := none, mtime := none,
          contentsUtf8 := some "a.txt" } =
      [FsOp.makeSymlink "a.txt" (joinPath "d" "lnk")] :=
  (c7_zip_symlink_size_gate (fun _ _ => false) "d" "lnk"
      { enclosedName := some "lnk", isDir := false, isFile := false,
        isSymlink := true, size := 5, unixMode := none, mtime := none,
        contentsUtf8 := some "a.txt" }
      rfl (by decide) rfl rfl rfl rfl rfl).2.2 "a.txt" rfl (by decide) (by decide)

/-! ## Files rename route (src/application/src/routes/api/servers/_server_/files/rename.rs) -/

/-- One entry of the request body's `files` array, with both paths already
joined against the request root (`root.join(file.from)` / `root.join(file.to)`,
rename.rs 57 and 62). -/
structure RenamePair where
  src : String
  dst : String
  deriving DecidableEq

/-- The filesystem view the route queries: the entries that exist, each with
its is-directory bit (entry-granular; a rename moves one entry). -/
def fsLookup (fs : List (String × Bool)) (p : String) : Option Bool :=
  (fs.find? (fun e => e.1 == p)).map (fun e => e.2)

/-- `rename_path` effect on the view: move the source entry to the
destination path. -/
def fsRename (fs : List (String × Bool)) (src dst : String) :
    List (String × Bool) :=
  match fsLookup fs src with
  | some d => (dst, d) :: fs.filter (fun e => !(e.1 == src))
  | none => fs

/-- One iteration of the rename loop (rename.rs 56-98): skip when the source
equals the root, the destination equals the root, source equals destination,
the source does not resolve, the destination already exists, or either path is
ignored; otherwise attempt `rename_path` (whose success `renameOk` decides —
a failure is only logged).  Returns the updated filesystem and the executed
rename, if any. -/
def renamePairStep (ign : String → Bool → Bool) (renameOk : String → String → Bool)
    (root : String) (fs : List (String × Bool)) (p : RenamePair) :
    List (String × Bool) × Option (String × String) :=
  if p.src = root then (fs, none)
  else if p.dst = root then (fs, none)
  else if p.src = p.dst then (fs, none)
  else
    match fsLookup fs p.src with
    | none => (fs, none)
    | some isDir =>
      if (fsLookup fs p.dst).isSome || ign p.src isDir || ign p.dst isDir then
        (fs, none)
      else if renameOk p.src p.dst then
        (fsRename fs p.src p.dst, some (p.src, p.dst))
      else (fs, none)

/-- The rename loop with the `renamed_count` counter (rename.rs 55, 96) and a
trace of the renames actually executed. -/
def renameLoop (ign : String → Bool → Bool) (renameOk : String → String → Bool)
    (root : String) (fs : List (String × Bool)) (count : Nat) :
    List RenamePair → List (String × Bool) × Nat × List (String × String)
  | [] => (fs, count, [])
  | p :: rest =>
    let step := renamePairStep ign renameOk root fs p
    match step.2 with
    | some e =>
      let r := renameLoop ign renameOk root step.1 (count + 1) rest
      (r.1, r.2.1, e :: r.2.2)
    | none => renameLoop ign renameOk root step.1 count rest

inductive RouteStatus where
  | ok
  | expectationFailed
  deriving DecidableEq

/-- Response of the route: HTTP status plus the `renamed` counter of the 200
body (absent on the 417 error body). -/
structure RenameResponse where
  status : RouteStatus
  renamed : Option Nat
  deriving DecidableEq

/-- `put::route` (rename.rs 41-109): when the root resolves and is not a
directory, respond 417 EXPECTATION_FAILED ("root is not a directory");
otherwise run the loop over all pairs and respond 200 OK with the counter. -/
def renameRoute (ign : String → Bool → Bool) (renameOk : String → String → Bool)
    (root : String) (fs : List (String × Bool)) (pairs : List RenamePair) :
    RenameResponse :=
  if fsLookup fs root = some false then
    { status := .expectationFailed, renamed := none }
  else
    { status := .ok,
      renamed := some (renameLoop ign renameOk root fs 0 pairs).2.1 }

/-- The counter counts exactly the executed renames. -/
theorem renameLoop_count (ign : String → Bool → Bool)
    (renameOk : String → String → Bool) (root : String) :
    ∀ (pairs : List RenamePair) (fs : List (String × Bool)) (count : Nat),
      (renameLoop ign renameOk root fs count pairs).2.1 =
        count + (renameLoop ign renameOk root fs count pairs).2.2.length := by
  intro pairs
  induction pairs with
  | nil => intro fs count; simp [renameLoop]
  | cons p rest ih =>
    intro fs count
    rw [renameLoop]
    cases hstep : (renamePairStep ign renameOk root fs p).2 with
    | some e =>
      simp only [hstep]
      rw [ih]
      simp only [List.length_cons]
      omega
    | none =>
      simp only [hstep]
      rw [ih]

/-! ## C9 -/

/-- C9 is false as stated on "always responds 200 OK": when the request root
resolves to a non-directory the route responds 417 EXPECTATION_FAILED with no
`renamed` counter. -/
theorem c9_counterexample :
    renameRoute (fun _ _ => false) (fun _ _ => true) "r" [("r", false)] [] =
      { status := .expectationFailed, renamed := none } ∧
    ({ status := .expectationFailed, renamed := none } : RenameResponse) ≠
      { status := .ok, renamed := some 0 } := by
  constructor
  · rfl
  · decide

/-- C9 amended: unless the request root resolves to a non-directory (in which
case the route responds 417), the endpoint responds 200 OK with `renamed`
equal to the number of pairs actually renamed; a pair is silently skipped —
filesystem unchanged — whenever the destination exists, source equals
destination, either path equals the root, either path is ignored, or the
source is missing, and a per-pair rename failure is also only skipped; every
executed rename targeted a destination that did not exist. -/
theorem c9_rename_route (ign : String → Bool → Bool)
    (renameOk : String → String → Bool) (root : String)
    (fs : List (String × Bool)) (pairs : List RenamePair) (p : RenamePair) :
    (fsLookup fs root = some false →
      renameRoute ign renameOk root fs pairs =
        { status := .expectationFailed, renamed := none }) ∧
    (fsLookup fs root ≠ some false →
      (renameRoute ign renameOk root fs pairs).status = .ok ∧
      (renameRoute ign renameOk root fs pairs).renamed =
        some (renameLoop ign renameOk root fs 0 pairs).2.2.length) ∧
    ((p.src = root ∨ p.dst = root ∨ p.src = p.dst ∨
        fsLookup fs p.src = none ∨ (fsLookup fs p.dst).isSome = true ∨
        (∃ b, fsLookup fs p.src = some b ∧
          (ign p.src b = true ∨ ign p.dst b = true)) ∨
        renameOk p.src p.dst = false) →
      renamePairStep ign renameOk root fs p = (fs, none)) ∧
    (∀ s d, (renamePairStep ign renameOk root fs p).2 = some (s, d) →
      s = p.src ∧ d = p.dst ∧ fsLookup fs d = none ∧
      (renamePairStep ign renameOk root fs p).1 = fsRename fs s d) := by
  refine ⟨?_, ?_, ?_, ?_⟩
  · intro h
    simp [renameRoute, h]
  · intro h
    rw [renameRoute, if_neg h]
    exact ⟨rfl, by rw [renameLoop_count]; simp⟩
  · rintro (h | h | h | h | h | ⟨b, hb, hig⟩ | h)
    · simp [renamePairStep, h]
    · by_cases h1 : p.src = root <;> simp [renamePairStep, h1, h]
    · by_cases h1 : p.src = root
      · simp [renamePairStep, h1]
      · by_cases h2 : p.dst = root <;> simp [renamePairStep, h1, h2, h]
    · by_cases h1 : p.src = root
      · simp [renamePairStep, h1]
      · by_cases h2 : p.dst = root
        · simp [renamePairStep, h1, h2]
        · by_cases h3 : p.src = p.dst <;> simp [renamePairStep, h1, h2, h3, h]
    · by_cases h1 : p.src = root
      · simp [renamePairStep, h1]
      · by_cases h2 : p.dst = root
        · simp [renamePairStep, h1, h2]
        · by_cases h3 : p.src = p.dst
          · simp [renamePairStep, h1, h2, h3]
          · cases hsrc : fsLookup fs p.src with
            | none => simp [renamePairStep, h1, h2, h3, hsrc]
            | some b => simp [renamePairStep, h1, h2, h3, hsrc, h]
    · by_cases h1 : p.src = root
      · simp [renamePairStep, h1]
      · by_cases h2 : p.dst = root
        · simp [renamePairStep, h1, h2]
        · by_cases h3 : p.src = p.dst
          · simp [renamePairStep, h1, h2, h3]
          · rcases hig with hig | hig <;>
              simp [renamePairStep, h1, h2, h3, hb, hig]
    · by_cases h1 : p.src = root
      · simp [renamePairStep, h1]
      · by_cases h2 : p.dst = root
        · simp [renamePairStep, h1, h2]
        · by_cases h3 : p.src = p.dst
          · simp [renamePairStep, h1, h2, h3]
          · cases hsrc : fsLookup fs p.src with
            | none => simp [renamePairStep, h1, h2, h3, hsrc]
            | some b =>
              by_cases h4 :
                  ((fsLookup fs p.dst).isSome || ign p.src b || ign p.dst b) = true
              · simp [renamePairStep, h1, h2, h3, hsrc, h4]
              · simp [renamePairStep, h1, h2, h3, hsrc, h4, h]
  · intro s d hexec
    unfold renamePairStep at hexec
    by_cases h1 : p.src = root
    · rw [if_pos h1] at hexec
      cases hexec
    · rw [if_neg h1] at hexec
      by_cases h2 : p.dst = root
      · rw [if_pos h2] at hexec
        cases hexec
      · rw [if_neg h2] at hexec
        by_cases h3 : p.src = p.dst
        · rw [if_pos h3] at hexec
          cases hexec
        · rw [if_neg h3] at hexec
          cases hsrc : fsLookup fs p.src with
          | none =>
            rw [hsrc] at hexec
            cases hexec
          | some b =>
            rw [hsrc] at hexec
            simp only at hexec
            by_cases h4 :
                ((fsLookup fs p.dst).isSome || ign p.src b || ign p.dst b) = true
            · rw [if_pos h4] at hexec
              cases hexec
            · rw [if_neg h4] at hexec
              have hdst : fsLookup fs p.dst = none := by
                simp only [Bool.or_eq_true, not_or] at h4
                rcases h4 with ⟨h5, -⟩
                cases hd : fsLookup fs p.dst
                · rfl
                · rw [hd] at h5
                  simp at h5
              by_cases h5 : renameOk p.src p.dst = true
              · rw [if_pos h5] at hexec
                simp only [Prod.mk.injEq] at hexec
                obtain ⟨hs, hd⟩ : p.src = s ∧ p.dst = d := by
                  injection hexec with h6
                  injection h6 with h7 h8
                  exact ⟨h7, h8⟩
                subst hs
                subst hd
                refine ⟨rfl, rfl, hdst, ?_⟩
                unfold renamePairStep
                rw [if_neg h1, if_neg h2, if_neg h3, hsrc]
                simp only [if_neg h4, if_pos h5]
              · rw [if_neg h5] at hexec
                cases hexec

/-- Witness for `c9_rename_route` at a concrete input. -/
theorem c9_rename_route_witness :
    renamePairStep (fun _ _ => false) (fun _ _ => true) "r"
        [("r", true), ("r/a", false), ("r/b", false)] ⟨"r/a", "r/b"⟩ =
      ([("r", true), ("r/a", false), ("r/b", false)], none) :=
  (c9_rename_route (fun _ _ => false) (fun _ _ => true) "r"
      [("r", true), ("r/a", false), ("r/b", false)] []
      ⟨"r/a", "r/b"⟩).2.2.1
    (Or.inr (Or.inr (Or.inr (Or.inr (Or.inl (by rfl))))))

/-! ## SSH exec session (src/application/src/ssh/exec.rs) -/

/-- `str::split_whitespace` helper: accumulate the current token (reversed). -/
def splitWhitespaceGo : List Char → List Char → List String
  | [], cur => if cur = [] then [] else [String.mk cur.reverse]
  | c :: rest, cur =>
    if c.isWhitespace then
      if cur = [] then splitWhitespaceGo rest []
      else String.mk cur.reverse :: splitWhitespaceGo rest []
    else splitWhitespaceGo rest (c :: cur)

/-- `command.split_whitespace()` (exec.rs 38). -/
def splitWhitespace (s : String) : List String := splitWhitespaceGo s.data []

/-- `segment.replace('\\', "")` (exec.rs 64, 67, 128, 131). -/
def removeBackslashes (s : String) : String :=
  String.mk (s.data.filter (fun c => c ≠ '\\'))

/-- `segment.ends_with('\\')` (exec.rs 135, 137). -/
def endsWithBackslash (s : String) : Bool := s.data.getLast? == some '\\'

/-- `str::trim`. -/
def trimString (s : String) : String :=
  String.mk (((s.data.dropWhile Char.isWhitespace).reverse.dropWhile
    Char.isWhitespace).reverse)

/-- `str::trim_end_matches(';')` (exec.rs 119). -/
def trimEndSemicolons (s : String) : String :=
  String.mk ((s.data.reverse.dropWhile (fun c => c = ';')).reverse)

/-- Final component of a unix path string (`Path::file_name`). -/
def fileNameOf (s : String) : String :=
  String.mk ((s.data.reverse.takeWhile (fun c => c ≠ '/')).reverse)

/-- `Path::extension`: the part of the file name after the last dot; none
when the name has no dot or only a single leading dot. -/
def pathExtension (s : String) : Option String :=
  let name := fileNameOf s
  let ext := name.data.reverse.takeWhile (fun c => c ≠ '.')
  if ext.length = name.data.length then none
  else if name.data.length = ext.length + 1 ∧ name.data.head? = some '.' then none
  else some (String.mk ext.reverse)

/-- The `tar -xzpPf` argument loop (exec.rs 53-70): tokens before `-C` build
the archive path, tokens after build the destination, backslashes stripped,
joined with single spaces. -/
def parseExtractGo : List String → Bool → String → String → String × String
  | [], _, path, destination => (path, destination)
  | seg :: rest, reached, path, destination =>
    if seg = "-C" then parseExtractGo rest true path destination
    else if reached then
      parseExtractGo rest true path (destination ++ removeBackslashes seg ++ " ")
    else parseExtractGo rest reached (path ++ removeBackslashes seg ++ " ") destination

/-- The `cd ...; tar ...` argument loop (exec.rs 121-141): the first token not
ending in a backslash closes the destination; later tokens accumulate into
`path`, flushed into `paths` (joined against `base`) at each token not ending
in a backslash.  A trailing unflushed `path` is discarded, as in the source. -/
def parseCompressGo (base : String) :
    List String → Bool → String → String → List String → String × List String
  | [], _, destination, _, paths => (destination, paths)
  | seg :: rest, reachedPath, destination, path, paths =>
    let cleaned := removeBackslashes seg
    let destination2 := if reachedPath then destination else destination ++ cleaned ++ " "
    let path2 := if reachedPath then path ++ cleaned ++ " " else path
    if ¬endsWithBackslash seg ∧ ¬reachedPath then
      parseCompressGo base rest true destination2 path2 paths
    else if ¬endsWithBackslash seg then
      parseCompressGo base rest reachedPath destination2 ""
        (paths ++ [joinPath base (trimString path2)])
    else parseCompressGo base rest reachedPath destination2 path2 paths

/-- The compression-type dispatch on the destination extension
(exec.rs 173-195): tar/gz/xz/bz2/lz4/zst are supported, anything else (or a
missing extension) returns the "Unsupported archive format." error. -/
def extensionSupported : Option String → Bool
  | some "tar" => true
  | some "gz" => true
  | some "xz" => true
  | some "bz2" => true
  | some "lz4" => true
  | some "zst" => true
  | _ => false

/-- The archive destination of the `cd ...; tar ...` path (exec.rs 119-143):
the base token trimmed and stripped of trailing semicolons, joined with the
trimmed parsed destination string. -/
def compressDestination (base : String) (rest : List String) : String :=
  let baseClean := trimEndSemicolons (trimString base)
  joinPath baseClean (trimString (parseCompressGo baseClean rest false "" "" []).1)

/-- Events observable on the SSH channel during `ExecSession::run`. -/
inductive ExecEvent where
  | dataStart
  | message : String → ExecEvent
  | exitStatus : Nat → ExecEvent
  | close
  deriving DecidableEq

/-- The session environment: permissions of the user, and the outcomes of the
fallible operations the handler performs.  Channel writes are modelled as
infallible; `stdinSendOk = false` is only logged by the source
(exec.rs 217-223) and changes no event. -/
structure ExecEnv where
  hasFileCreate : Bool
  hasFileArchive : Bool
  hasControlConsole : Bool
  archiveOpens : Bool
  extractOk : Bool
  writerOk : Bool
  createTarOk : Bool
  serverOffline : Bool
  stdinAvailable : Bool
  stdinSendOk : Bool
  deriving DecidableEq

/-- The generic-command tail of the handler (exec.rs 213-251): with
`ControlConsole` and a running server the command is forwarded (send errors
only logged); otherwise a notice is written — and every path then emits
`exit_status(0)` and `close` (exec.rs 250-251). -/
def execGeneric (env : ExecEnv) : List ExecEvent :=
  if env.hasControlConsole then
    if ¬env.serverOffline ∧ env.stdinAvailable then
      [ExecEvent.exitStatus 0, ExecEvent.close]
    else
      [ExecEvent.message "Server is not running.\r\n", ExecEvent.exitStatus 0,
        ExecEvent.close]
  else
    [ExecEvent.message "Permission denied.\r\n", ExecEvent.exitStatus 0,
      ExecEvent.close]

/-- Dispatch of `ExecSession::run` on the whitespace-split command tokens
(exec.rs 39-253), producing the channel events after the initial
`channel.data`.  An `Err` escaping the `run` closure reaches the handler at
exec.rs 256-264, which emits `exit_status(1)` and `close`. -/
def execDispatch (env : ExecEnv) : List String → List ExecEvent
  | "tar" :: "-xzpPf" :: rest =>
    if ¬env.hasFileCreate then
      [ExecEvent.message "Permission denied.\r\n", ExecEvent.exitStatus 1,
        ExecEvent.close]
    else
      let _parsed := parseExtractGo rest false "" ""
      if ¬env.archiveOpens then [ExecEvent.exitStatus 1, ExecEvent.close]
      else if ¬env.extractOk then [ExecEvent.exitStatus 1, ExecEvent.close]
      else [ExecEvent.exitStatus 0, ExecEvent.close]
  | "cd" :: base :: "tar" :: _flags :: rest =>
    if ¬env.hasFileArchive then
      [ExecEvent.message "Permission denied.\r\n", ExecEvent.exitStatus 1,
        ExecEvent.close]
    else if ¬env.writerOk then [ExecEvent.exitStatus 1, ExecEvent.close]
    else if ¬extensionSupported (pathExtension (compressDestination base rest)) then
      [ExecEvent.exitStatus 1, ExecEvent.close]
    else if ¬env.createTarOk then [ExecEvent.exitStatus 1, ExecEvent.close]
    else
      [ExecEvent.message "Archive created successfully.\r\n",
        ExecEvent.exitStatus 0, ExecEvent.close]
  | _ => execGeneric env

/-- `ExecSession::run` on a command line: `channel.data` first (exec.rs 36),
then the dispatch on the split tokens. -/
def execRun (env : ExecEnv) (command : String) : List ExecEvent :=
  ExecEvent.dataStart :: execDispatch env (splitWhitespace command)

/-- Whether an event list ends with `exit_status c` (for `c` 0 or 1)
immediately followed by `close`. -/
def endsWithExitClose : List ExecEvent → Bool
  | [ExecEvent.exitStatus c, ExecEvent.close] => (c == 0) || (c == 1)
  | _ :: rest => endsWithExitClose rest
  | [] => false

theorem execDispatch_ends (env : ExecEnv) (toks : List String) :
    endsWithExitClose (ExecEvent.dataStart :: execDispatch env toks) = true := by
  unfold execDispatch execGeneric
  repeat' split
  all_goals rfl

/-! ## C5 -/

/-- A permissionless environment where every operation would succeed. -/
def execEnvNoPerms : ExecEnv :=
  { hasFileCreate := false, hasFileArchive := false, hasControlConsole := false,
    archiveOpens := true, extractOk := true, writerOk := true,
    createTarOk := true, serverOffline := false, stdinAvailable := true,
    stdinSendOk := true }

/-- C5 is false as stated: a generic command without the `ControlConsole`
permission writes "Permission denied." and then exits with status 0, not 1
(exec.rs 244-251); no exit status 1 is ever emitted on this path. -/
theorem c5_counterexample :
    execRun execEnvNoPerms "whoami" =
      [ExecEvent.dataStart, ExecEvent.message "Permission denied.\r\n",
        ExecEvent.exitStatus 0, ExecEvent.close] ∧
    ExecEvent.exitStatus 1 ∉ execRun execEnvNoPerms "whoami" := by
  constructor
  · rfl
  · decide

/-- C5 amended: every exec response ends with an exit status (0 or 1)
followed by close; the tar-extract and tar-create paths exit 1 on permission
denial (and on any error propagated out of the handler), but the
generic-command path exits 0 even on its permission-denied and
server-not-running outcomes. -/
theorem c5_exec_exit_codes (env : ExecEnv) (command : String) :
    endsWithExitClose (execRun env command) = true ∧
    (∀ rest, splitWhitespace command = "tar" :: "-xzpPf" :: rest →
      env.hasFileCreate = false →
      execRun env command =
        [ExecEvent.dataStart, ExecEvent.message "Permission denied.\r\n",
          ExecEvent.exitStatus 1, ExecEvent.close]) ∧
    (∀ base fl rest, splitWhitespace command = "cd" :: base :: "tar" :: fl :: rest →
      env.hasFileArchive = false →
      execRun env command =
        [ExecEvent.dataStart, ExecEvent.message "Permission denied.\r\n",
          ExecEvent.exitStatus 1, ExecEvent.close]) ∧
    (execDispatch env (splitWhitespace command) = execGeneric env →
      (env.hasControlConsole = false →
        execRun env command =
          [ExecEvent.dataStart, ExecEvent.message "Permission denied.\r\n",
            ExecEvent.exitStatus 0, ExecEvent.close]) ∧
      (env.hasControlConsole = true → env.serverOffline = true →
        execRun env command =
          [ExecEvent.dataStart, ExecEvent.message "Server is not running.\r\n",
            ExecEvent.exitStatus 0, ExecEvent.close])) := by
  refine ⟨execDispatch_ends env (splitWhitespace command), ?_, ?_, ?_⟩
  · intro rest hsplit hperm
    rw [execRun, hsplit, execDispatch]
    simp [hperm]
  · intro base fl rest hsplit hperm
    rw [execRun, hsplit]
    by_cases hbase : base = "tar" <;> by_cases hfl : fl = "tar"
    all_goals rw [execDispatch]
    all_goals simp [hperm]
  · intro hgen
    constructor
    · intro hcc
      rw [execRun, hgen, execGeneric]
      simp [hcc]
    · intro hcc hoff
      rw [execRun, hgen, execGeneric]
      simp [hcc, hoff]

/-- Witness for `c5_exec_exit_codes` at a concrete input. -/
theorem c5_exec_exit_codes_witness :
    execRun execEnvNoPerms "tar -xzpPf backup.tar.gz -C restore" =
      [ExecEvent.dataStart, ExecEvent.message "Permission denied.\r\n",
        ExecEvent.exitStatus 1, ExecEvent.close] :=
  (c5_exec_exit_codes execEnvNoPerms "tar -xzpPf backup.tar.gz -C restore").2.1
    ["backup.tar.gz", "-C", "restore"] (by decide) rfl

end Wings
